import Mathlib

set_option allowUnsafeReducibility true
attribute [local semireducible] Rat.mul Rat.add Rat.sub Rat.div Rat.inv Rat.neg Rat.ofScientific

/-
Shallow embedding of the riot agent-based model (src/abm/base_version):
model.py (RiotModel), agent.py (FanAgent), city_map.py (CityMap),
utils/prob_func.py and utils/global_model_parameters.py.

Conventions taken from the source:
* an agent position `pos` is a `(col, row)` pair (mesa convention);
* the numpy density maps and the city map are indexed `map[pos[::-1]]`,
  i.e. by `(row, col)`; `posIdx` performs that reversal;
* the Python floats of prob_func.py are embedded as rationals;
* the two process-global random streams the code consumes
  (`numpy.random` for state sampling, `random` for movement choices) are
  modelled as explicit draws in `[0,1)` passed to the step functions,
  interpreted by inverse-CDF sampling.
-/

namespace ABM

abbrev Cell := Nat × Nat     -- (col, row), as stored in FanAgent.pos
abbrev MapIdx := Nat × Nat   -- (row, col), as used to index the numpy arrays

-- global_model_parameters.py
def MAX_AVAILABLE_AGENT_IN_CELL : Nat := 5
def MIN_PROB_OF_TRANS_TO_BASE : ℚ := 1/100
def MIN_PROB_OF_TRANS_TO_RIOT : ℚ := 1/100
def MIN_PROB_OF_TRANS_TO_INJURED : ℚ := 0
def DOWNWARD_EXTRA_WEIGHT : ℚ := 5

/-- `pos[::-1]`: turn a `(col, row)` position into a `(row, col)` array index. -/
def posIdx (p : Cell) : MapIdx := (p.2, p.1)

inductive AgentState
  | base
  | riot
  | injured
deriving DecidableEq

structure Agent where
  uid : Nat
  pos : Cell
  team : Bool      -- true = home, false = away
  state : AgentState
deriving DecidableEq

/-- The mutable state of a `RiotModel`: grid occupancy (the agent list),
the five density maps, the city map and the entry/exit counters. -/
structure World where
  width : Nat
  height : Nat
  cityMap : MapIdx → Bool
  baseMap : MapIdx → Int
  riotMap : MapIdx → Int
  injuredMap : MapIdx → Int
  homeMap : MapIdx → Int
  awayMap : MapIdx → Int
  agents : List Agent
  enteredHome : Nat
  enteredAway : Nat
  leftHome : Nat
  leftAway : Nat

/-- `getattr(self, f"{state}_state_map")`. -/
def World.stateMap (w : World) : AgentState → (MapIdx → Int)
  | .base => w.baseMap
  | .riot => w.riotMap
  | .injured => w.injuredMap

def World.withStateMap (w : World) : AgentState → (MapIdx → Int) → World
  | .base, m => { w with baseMap := m }
  | .riot, m => { w with riotMap := m }
  | .injured, m => { w with injuredMap := m }

/-- `getattr(self, f"{'home' if team else 'away'}_team_map")`. -/
def World.teamMap (w : World) (t : Bool) : MapIdx → Int :=
  if t then w.homeMap else w.awayMap

def World.withTeamMap (w : World) (t : Bool) (m : MapIdx → Int) : World :=
  if t then { w with homeMap := m } else { w with awayMap := m }

/-- In-place `map[idx] += d` on a numpy array, as a function update. -/
def bumpAt (m : MapIdx → Int) (i : MapIdx) (d : Int) : MapIdx → Int :=
  fun j => if j = i then m j + d else m j

/-- `len(self.grid.get_cell_list_contents([pos]))`. -/
def World.occupancy (w : World) (p : Cell) : Nat :=
  (w.agents.filter (fun a => decide (a.pos = p))).length

/-- mesa mutates the one shared agent object; here the record in the
scheduler list is replaced by its updated copy (identified by uid). -/
def World.setAgentRecord (w : World) (a : Agent) : World :=
  { w with agents := w.agents.map (fun x => if x.uid = a.uid then a else x) }

-- RiotModel._add_agent_to_maps
def add_agent_to_maps (w : World) (pos : Cell) (team : Bool) (st : AgentState) : World :=
  let w1 := w.withTeamMap team (bumpAt (w.teamMap team) (posIdx pos) 1)
  w1.withStateMap st (bumpAt (w1.stateMap st) (posIdx pos) 1)

-- RiotModel._remove_agent_from_maps
def remove_agent_from_maps (w : World) (pos : Cell) (team : Bool) (st : AgentState) : World :=
  let w1 := w.withTeamMap team (bumpAt (w.teamMap team) (posIdx pos) (-1))
  w1.withStateMap st (bumpAt (w1.stateMap st) (posIdx pos) (-1))

/-- RiotModel.add_agent: raises (here: `none`) when the target cell already
holds `MAX_AVAILABLE_AGENT_IN_CELL` agents; the check precedes every
mutation, so on the error the model is untouched. -/
def add_agent (w : World) (pos : Cell) (uid : Nat) (team : Bool) (st : AgentState) :
    Option World :=
  if MAX_AVAILABLE_AGENT_IN_CELL ≤ w.occupancy pos then none
  else
    let w1 := { w with agents := w.agents ++ [⟨uid, pos, team, st⟩] }
    some (add_agent_to_maps w1 pos team st)

-- RiotModel.remove_agent: maps first, then grid and scheduler removal.
def remove_agent (w : World) (a : Agent) : World :=
  let w1 := remove_agent_from_maps w a.pos a.team a.state
  { w1 with agents := w1.agents.filter (fun x => decide (¬ x.uid = a.uid)) }

-- FanAgent._remove_agent_state_from_map / _add_agent_state_to_map
def remove_agent_state_from_map (w : World) (a : Agent) : World :=
  w.withStateMap a.state (bumpAt (w.stateMap a.state) (posIdx a.pos) (-1))

def add_agent_state_to_map (w : World) (a : Agent) : World :=
  w.withStateMap a.state (bumpAt (w.stateMap a.state) (posIdx a.pos) 1)

-- FanAgent._remove_agent_team_from_map / _add_agent_team_to_map
def remove_agent_team_from_map (w : World) (a : Agent) : World :=
  w.withTeamMap a.team (bumpAt (w.teamMap a.team) (posIdx a.pos) (-1))

def add_agent_team_to_map (w : World) (a : Agent) : World :=
  w.withTeamMap a.team (bumpAt (w.teamMap a.team) (posIdx a.pos) 1)

/-- `grid.get_neighborhood(pos, moore=True, include_center=True)` on a
non-torus grid: the 3x3 window clipped at the boundaries. -/
def neighborhood (w : World) (pos : Cell) : List Cell :=
  (([-1, 0, 1] : List Int).flatMap (fun dy =>
    (([-1, 0, 1] : List Int).flatMap (fun dx =>
      let x : Int := (pos.1 : Int) + dx
      let y : Int := (pos.2 : Int) + dy
      if 0 ≤ x ∧ x < (w.width : Int) ∧ 0 ≤ y ∧ y < (w.height : Int) then
        [(x.toNat, y.toNat)]
      else []))))

-- FanAgent._find_possible_n_available_cells: keep the passable cells.
def find_possible_n_available_cells (w : World) (pos : Cell) : List Cell :=
  (neighborhood w pos).filter (fun c => w.cityMap (posIdx c))

-- FanAgent._find_cell_to_move: keep the cells below capacity.
def find_cell_to_move (w : World) (potential : List Cell) : List Cell :=
  potential.filter (fun c => decide (w.occupancy c < MAX_AVAILABLE_AGENT_IN_CELL))

-- FanAgent._find_available_downward_cells
def find_available_downward_cells (w : World) (a : Agent) : List Cell :=
  (find_cell_to_move w (find_possible_n_available_cells w a.pos)).filter
    (fun c => decide (a.pos.2 < c.2))

-- FanAgent._find_agent_states_in_vicinity
def find_agent_states_in_vicinity (w : World) (st : AgentState) (cells : List Cell) : Int :=
  (cells.map (fun c => w.stateMap st (posIdx c))).sum

-- prob_func.state_change_probability (the parameter k is present but unused)
def state_change_probability (nInState : ℚ) (nAvailCells : ℚ) (k : ℚ := 5) : ℚ :=
  nInState / (nAvailCells * (MAX_AVAILABLE_AGENT_IN_CELL : ℚ))

-- prob_func.cell_movement_probability
def cell_movement_probability (pos : Cell) (cells : List Cell) (counts : List ℚ)
    (nAvailCells : ℚ) : List ℚ :=
  (cells.zip counts).map (fun p =>
    let r := p.2 / (nAvailCells * (MAX_AVAILABLE_AGENT_IN_CELL : ℚ))
    if pos.2 < p.1.2 then r * DOWNWARD_EXTRA_WEIGHT else r)

/-- The three clamped relative scores of FanAgent._set_agent_state
(lines 172-183), in order (base, riot, injured). -/
def relProbs (nBase nRiot nCenter : ℚ) (nAvail : Nat) : ℚ × ℚ × ℚ :=
  (max MIN_PROB_OF_TRANS_TO_BASE (state_change_probability nBase (nAvail : ℚ)),
   max MIN_PROB_OF_TRANS_TO_RIOT (state_change_probability nRiot (nAvail : ℚ)),
   max MIN_PROB_OF_TRANS_TO_INJURED (state_change_probability nCenter 1 / 10))

def agentRelProbs (w : World) (a : Agent) (avail : List Cell) : ℚ × ℚ × ℚ :=
  relProbs
    (find_agent_states_in_vicinity w .base avail)
    (find_agent_states_in_vicinity w .riot avail)
    (find_agent_states_in_vicinity w .riot [a.pos]
      + find_agent_states_in_vicinity w .injured [a.pos])
    avail.length

/-- `np.random.choice(["base","riot","injured"], p=rel/rel.sum())`, as
inverse-CDF sampling with a draw `u` in `[0,1)`. -/
def sampleState (p : ℚ × ℚ × ℚ) (u : ℚ) : AgentState :=
  let s := p.1 + p.2.1 + p.2.2
  if u * s < p.1 then .base
  else if u * s < p.1 + p.2.1 then .riot
  else .injured

-- FanAgent._set_agent_state
def set_agent_state (w : World) (a : Agent) (avail : List Cell) (u : ℚ) : World × Agent :=
  let p := agentRelProbs w a avail
  let w1 := remove_agent_state_from_map w a
  let a1 := { a with state := sampleState p u }
  let w2 := add_agent_state_to_map w1 a1
  (w2.setAgentRecord a1, a1)

/-- The per-candidate movement weights of FanAgent._move_agent: the base
branch reads the agent's own team map, the riot branch the riot state map
(the two source branches differ only in that map); the normalizer passed
to `cell_movement_probability` is `len(available_cells_to_move)`. -/
def movementWeights (w : World) (a : Agent) (cells : List Cell) : List ℚ :=
  match a.state with
  | .base =>
      cell_movement_probability a.pos cells
        (cells.map (fun c => ((w.teamMap a.team (posIdx c) : Int) : ℚ))) (cells.length : ℚ)
  | .riot =>
      cell_movement_probability a.pos cells
        (cells.map (fun c => ((w.riotMap (posIdx c) : Int) : ℚ))) (cells.length : ℚ)
  | .injured => []

inductive MoveDecision
  | weighted (cells : List Cell) (weights : List ℚ)
  | uniform (cells : List Cell)
  | stay
deriving DecidableEq

/-- The branch taken inside the base/riot cases of FanAgent._move_agent:
the `np.all(rel_probs == 0.0)` fallback to the downward cells, else the
weighted choice over `available_cells_to_move`. -/
def moveDecisionCore (w : World) (a : Agent) (avail : List Cell) : MoveDecision :=
  let ws := movementWeights w a avail
  if ws.all (fun q => decide (q = 0)) then
    let dw := find_available_downward_cells w a
    if dw = [] then .stay else .uniform dw
  else .weighted avail ws

/-- The movement decision of FanAgent._move_agent for an agent not on the
exit row (the surrounding `if self.pos[1] != ... - 1` is in `move_agent`).
The source has no reachable state outside base/riot/injured, so the
`ValueError` arm of its `match` has no counterpart here. -/
def moveDecision (w : World) (a : Agent) (potential : List Cell) : MoveDecision :=
  let avail := find_cell_to_move w potential
  if avail = [] then .stay
  else
    match a.state with
    | .base => moveDecisionCore w a avail
    | .riot => moveDecisionCore w a avail
    | .injured => .stay

/-- The committed move: decrement state and team maps at the old cell,
`grid.move_agent`, increment both maps at the new cell. -/
def commitMove (w : World) (a : Agent) (newPos : Cell) : World :=
  let w1 := remove_agent_team_from_map (remove_agent_state_from_map w a) a
  let a1 := { a with pos := newPos }
  let w2 := add_agent_team_to_map (add_agent_state_to_map w1 a1) a1
  w2.setAgentRecord a1

/-- `random.choices(cells, k=1)[0]` (no weights: uniform), with a draw `u`
in `[0,1)` mapped to an index. -/
def uniformPick (cells : List Cell) (u : ℚ) (dflt : Cell) : Cell :=
  cells.getD (min (Int.toNat ⌊u * (cells.length : ℚ)⌋) (cells.length - 1)) dflt

/-- `random.choices(cells, weights=rel/rel.sum(), k=1)[0]`, as inverse-CDF
sampling: walk the weights until the scaled draw is exhausted. -/
def weightedPickAux (cells : List Cell) (ws : List ℚ) (target : ℚ) (dflt : Cell) : Cell :=
  match cells, ws with
  | [], _ => dflt
  | c :: cs, w :: rest => if target < w then c else weightedPickAux cs rest (target - w) c
  | c :: _, [] => c

def weightedPick (cells : List Cell) (ws : List ℚ) (u : ℚ) (dflt : Cell) : Cell :=
  weightedPickAux cells ws (u * ws.sum) dflt

/-- FanAgent._move_agent.  Off the exit row it interprets `moveDecision`
with the movement draw; on the exit row (`pos[1] == city_map.shape[0]-1`)
it removes the agent: it decrements the state and team maps itself, bumps
the team's left counter, and then calls RiotModel.remove_agent — which
decrements both maps at the same cell a second time, exactly as the
source does. -/
def move_agent (w : World) (a : Agent) (potential : List Cell) (u : ℚ) : World :=
  if a.pos.2 ≠ w.height - 1 then
    match moveDecision w a potential with
    | .stay => w
    | .uniform dw => commitMove w a (uniformPick dw u a.pos)
    | .weighted cells ws => commitMove w a (weightedPick cells ws u a.pos)
  else
    let w1 := remove_agent_team_from_map (remove_agent_state_from_map w a) a
    let w2 :=
      if a.team then { w1 with leftHome := w1.leftHome + 1 }
      else { w1 with leftAway := w1.leftAway + 1 }
    remove_agent w2 a

/-- FanAgent.step: a no-op for injured agents; otherwise the transition
rule then the movement rule, sharing the passable-neighborhood list.
`uState` is the numpy draw, `uMove` the `random`-module draw. -/
def FanAgent.step (w : World) (uid : Nat) (uState uMove : ℚ) : World :=
  match w.agents.find? (fun x => decide (x.uid = uid)) with
  | none => w
  | some a =>
    if a.state = .injured then w
    else
      let avail := find_possible_n_available_cells w a.pos
      let wa := set_agent_state w a avail uState
      move_agent wa.1 wa.2 avail uMove

/-- `np.sum(map)` over the full grid. -/
def gridSum (w : World) (m : MapIdx → Int) : Int :=
  ((List.range w.height).flatMap (fun r => (List.range w.width).map (fun c => m (r, c)))).sum

/-- The per-tick aggregates reported by the two DataCollectors. -/
structure Aggregate where
  base : Int
  riot : Int
  injured : Int
  home : Int
  away : Int
deriving DecidableEq

def collect (w : World) : Aggregate :=
  ⟨gridSum w w.baseMap, gridSum w w.riotMap, gridSum w w.injuredMap,
   gridSum w w.homeMap, gridSum w w.awayMap⟩

/-- RiotModel.step: the scheduler visits the live agents in the shuffled
order `order` (drawn from the mesa model RNG); each visited agent consumes
one numpy draw and one `random`-module draw; the DataCollectors then
collect. -/
def modelStep (w : World) (order : List Nat) (npDraws pyDraws : List ℚ) :
    World × Aggregate :=
  let w1 := (order.zip (npDraws.zip pyDraws)).foldl
    (fun acc x => FanAgent.step acc x.1 x.2.1 x.2.2) w
  (w1, collect w1)

/-- RiotModel.run_riot_model's tick loop, one aggregate per tick. -/
def runModel (w : World) (orders : List (List Nat)) (nps pys : List (List ℚ)) :
    List Aggregate :=
  match orders, nps, pys with
  | o :: os, a :: ars, b :: brs =>
    let wa := modelStep w o a b
    wa.2 :: runModel wa.1 os ars brs
  | _, _, _ => []

/-- RiotModel.__init__ with `city_map=None`: empty grid, all cells
passable, zero maps and counters. -/
def freshModel (width height : Nat) : World :=
  { width := width, height := height, cityMap := fun _ => true,
    baseMap := fun _ => 0, riotMap := fun _ => 0, injuredMap := fun _ => 0,
    homeMap := fun _ => 0, awayMap := fun _ => 0,
    agents := [], enteredHome := 0, enteredAway := 0, leftHome := 0, leftAway := 0 }

/-- Helper to build concrete reachable worlds: `add_agent`, keeping the old
world when the capacity check fires. -/
def addAgentD (w : World) (pos : Cell) (uid : Nat) (team : Bool) (st : AgentState) : World :=
  (add_agent w pos uid team st).getD w

/-- Decidable check of the density-map invariant over the whole grid:
at every cell, base+riot+injured = home+away = occupancy, and the
occupancy is at most `MAX_AVAILABLE_AGENT_IN_CELL`. -/
def densityInvariantB (w : World) : Bool :=
  (List.range w.height).all (fun r => (List.range w.width).all (fun c =>
    decide (w.baseMap (r, c) + w.riotMap (r, c) + w.injuredMap (r, c)
        = (w.occupancy (c, r) : Int)
      ∧ w.homeMap (r, c) + w.awayMap (r, c) = (w.occupancy (c, r) : Int)
      ∧ w.occupancy (c, r) ≤ MAX_AVAILABLE_AGENT_IN_CELL)))

/-- CityMap.generate_vertical_streets: the four validity checks, then the
predicate holding on the street columns.  After the first three checks
every quantity involved is nonnegative, so the Python floor divisions and
subtractions coincide with the Nat ones used here. -/
def generate_vertical_streets (width : Nat) (nStreets streetWidth : Int) :
    Option (Nat → Bool) :=
  if nStreets ≤ 0 then none
  else if streetWidth ≤ 0 then none
  else if (width : Int) < nStreets * streetWidth then none
  else
    let n := nStreets.toNat
    let sw := streetWidth.toNat
    let availableColumns := width - n * sw
    let buildingWidth := availableColumns / (n + 1)
    if buildingWidth < 1 then none
    else
      some (fun c => (List.range n).any (fun i =>
        let startCol := buildingWidth * (i + 1) + i * sw
        decide (startCol ≤ c ∧ c < startCol + sw)))

/-- CityMap.__init__: a `height x width` zero grid, the exit space written
into the top `exitSpaceHeight` rows, then the vertical streets — or the
construction error, modelled as `none`. -/
def CityMap.build (width height : Nat) (nStreets streetWidth : Int)
    (exitSpaceHeight : Nat) : Option (MapIdx → Bool) :=
  (generate_vertical_streets width nStreets streetWidth).map (fun streetCol =>
    fun rc => decide (rc.1 < height) && decide (rc.2 < width) &&
      (decide (rc.1 < exitSpaceHeight) || streetCol rc.2))

/-- `start_col` of the i-th street: `building_width * (i+1) + i * street_width`. -/
def streetStart (width : Nat) (nStreets streetWidth : Int) (i : Nat) : Nat :=
  ((width - nStreets.toNat * streetWidth.toNat) / (nStreets.toNat + 1)) * (i + 1)
    + i * streetWidth.toNat

/-- Spec-side definition, following the words of the spec (section 4.3):
clip the ratio to [0,1], then apply a steepness-k logistic sigmoid
centered at 0.5.  Used only to compare the spec's claimed transform with
`state_change_probability`. -/
noncomputable def specSigmoidScore (k r : ℝ) : ℝ :=
  1 / (1 + Real.exp (-k * (min (max r 0) 1 - 1/2)))

/-- Spec-side definition, following the words of the spec (section 4.4):
the relevant map count at the candidate cell normalized by
`1 * CAPACITY`, boosted when the cell is strictly closer to the exit. -/
def specMovementWeights (m : MapIdx → Int) (pos : Cell) (cells : List Cell) : List ℚ :=
  cells.map (fun c => ((m (posIdx c) : Int) : ℚ) / (1 * (MAX_AVAILABLE_AGENT_IN_CELL : ℚ))
    * (if pos.2 < c.2 then DOWNWARD_EXTRA_WEIGHT else 1))

/-- The map the movement rule reads: the agent's own team map in the base
state, the riot state map in the riot state (never read when injured). -/
def relevantMap (w : World) (a : Agent) : MapIdx → Int :=
  match a.state with
  | .base => w.teamMap a.team
  | .riot => w.riotMap
  | .injured => fun _ => 0

/-
Concrete reachable worlds used in the closed theorems below, all built
through `add_agent` from a fresh all-passable model.
-/

/-- A 1-wide, 2-high world holding one home base agent at the entry-side
cell (0,0) (row 0; the exit row is row 1). -/
def w12 : World := addAgentD (freshModel 1 2) (0, 0) 0 true .base

def a12 : Agent := ⟨0, (0, 0), true, .base⟩

/-- A 1x1 world whose single cell is the exit row: its one home base agent
is removed by its first step. -/
def exitWorld : World := addAgentD (freshModel 1 1) (0, 0) 0 true .base

/-- A 1x1 world holding one injured home agent standing on the exit row. -/
def injWorld : World := addAgentD (freshModel 1 1) (0, 0) 0 true .injured

def aInj : Agent := ⟨0, (0, 0), true, .injured⟩

/-- A 2x2 world with home base agents at (0,0) and (0,1). -/
def w22 : World := addAgentD (addAgentD (freshModel 2 2) (0, 0) 0 true .base) (0, 1) 1 true .base

def a22 : Agent := ⟨0, (0, 0), true, .base⟩

/-- A 2x2 world whose cell (0,0) is full: one home base agent and four away
base agents. -/
def wFull : World :=
  addAgentD (addAgentD (addAgentD (addAgentD (addAgentD (freshModel 2 2) (0, 0) 0 true .base)
    (0, 0) 1 false .base) (0, 0) 2 false .base) (0, 0) 3 false .base) (0, 0) 4 false .base

def aFull : Agent := ⟨0, (0, 0), true, .base⟩

/-
Theorems.
-/

/-- C1: the claimed density-map invariant (base+riot+injured = home+away =
occupancy ≤ capacity at every cell, preserved by every add, move and
removal) is broken by the code's exit-row removal: stepping the single
agent of `exitWorld` (a reachable state on which the invariant holds)
leaves the base and home maps at -1 while the cell's occupancy is 0,
because `move_agent` decrements the maps and then `remove_agent`
decrements them a second time. -/
theorem invariant_violated_on_exit :
    densityInvariantB exitWorld = true
    ∧ densityInvariantB (FanAgent.step exitWorld 0 0 0) = false
    ∧ (FanAgent.step exitWorld 0 0 0).baseMap (0, 0) = -1
    ∧ (FanAgent.step exitWorld 0 0 0).occupancy (0, 0) = 0 := by decide

/-- C2: stepping a non-injured agent standing on the exit row does remove
it from the live set, attempts no movement and increments its team's left
counter by exactly 1 — but its state and team density counters at its old
cell decrease by 2, not by exactly 1: they go from 1 to -1. -/
theorem exit_double_decrement :
    exitWorld.baseMap (0, 0) = 1 ∧ exitWorld.homeMap (0, 0) = 1
    ∧ (FanAgent.step exitWorld 0 0 0).baseMap (0, 0) = -1
    ∧ (FanAgent.step exitWorld 0 0 0).homeMap (0, 0) = -1
    ∧ (FanAgent.step exitWorld 0 0 0).agents = []
    ∧ (FanAgent.step exitWorld 0 0 0).leftHome = 1
    ∧ (FanAgent.step exitWorld 0 0 0).leftAway = 0 := by decide

/-- C3 counterexample: the configured injury floor is 0.0, not a non-zero
probability, and for the lone base agent of `w12` (no rioter or injured
agent at its cell) the clamped injury score — and therefore the
probability of sampling the injured state — is exactly 0. -/
theorem injured_floor_zero_cex :
    MIN_PROB_OF_TRANS_TO_INJURED = 0
    ∧ (agentRelProbs w12 a12 (find_possible_n_available_cells w12 a12.pos)).2.2 = 0
    ∧ (agentRelProbs w12 a12 (find_possible_n_available_cells w12 a12.pos)).2.2
        / ((agentRelProbs w12 a12 (find_possible_n_available_cells w12 a12.pos)).1
          + (agentRelProbs w12 a12 (find_possible_n_available_cells w12 a12.pos)).2.1
          + (agentRelProbs w12 a12 (find_possible_n_available_cells w12 a12.pos)).2.2) = 0 := by
  decide

/-- C3 amended: the base and riot scores are clamped to the non-zero floor
1/100, so after normalization the base and riot states always have
strictly positive probability; the injured score is clamped only to the
floor 0, so it is merely nonnegative and the injured transition can be
fully excluded. -/
theorem transition_floor_amended (nBase nRiot nCenter : ℚ) (nAvail : Nat) :
    (1 : ℚ)/100 ≤ (relProbs nBase nRiot nCenter nAvail).1
    ∧ (1 : ℚ)/100 ≤ (relProbs nBase nRiot nCenter nAvail).2.1
    ∧ 0 ≤ (relProbs nBase nRiot nCenter nAvail).2.2
    ∧ 0 < (relProbs nBase nRiot nCenter nAvail).1
        / ((relProbs nBase nRiot nCenter nAvail).1 + (relProbs nBase nRiot nCenter nAvail).2.1
          + (relProbs nBase nRiot nCenter nAvail).2.2)
    ∧ 0 < (relProbs nBase nRiot nCenter nAvail).2.1
        / ((relProbs nBase nRiot nCenter nAvail).1 + (relProbs nBase nRiot nCenter nAvail).2.1
          + (relProbs nBase nRiot nCenter nAvail).2.2) := by
  have hfb : (1 : ℚ)/100 ≤ (relProbs nBase nRiot nCenter nAvail).1 := by
    simp only [relProbs, MIN_PROB_OF_TRANS_TO_BASE]
    exact le_max_left _ _
  have hfr : (1 : ℚ)/100 ≤ (relProbs nBase nRiot nCenter nAvail).2.1 := by
    simp only [relProbs, MIN_PROB_OF_TRANS_TO_RIOT]
    exact le_max_left _ _
  have hfi : 0 ≤ (relProbs nBase nRiot nCenter nAvail).2.2 := by
    simp only [relProbs, MIN_PROB_OF_TRANS_TO_INJURED]
    exact le_max_left _ _
  have hb : 0 < (relProbs nBase nRiot nCenter nAvail).1 :=
    lt_of_lt_of_le (by norm_num) hfb
  have hr : 0 < (relProbs nBase nRiot nCenter nAvail).2.1 :=
    lt_of_lt_of_le (by norm_num) hfr
  have hsum : 0 < (relProbs nBase nRiot nCenter nAvail).1
      + (relProbs nBase nRiot nCenter nAvail).2.1 + (relProbs nBase nRiot nCenter nAvail).2.2 :=
    add_pos_of_pos_of_nonneg (add_pos hb hr) hfi
  exact ⟨hfb, hfr, hfi, div_pos hb hsum, div_pos hr hsum⟩

/-- C4 counterexample: `state_change_probability` applies no clipping and
no sigmoid.  At count 10 over one cell it returns 2, which no clipped
score permits; and at count 0 it returns exactly 0, while the spec's
clipped steepness-5 sigmoid of the same ratio is strictly positive. -/
theorem sigmoid_transform_cex :
    state_change_probability 10 1 5 = 2
    ∧ ((state_change_probability 0 1 5 : ℚ) : ℝ) ≠ specSigmoidScore 5 0 := by
  constructor
  · norm_num [state_change_probability, MAX_AVAILABLE_AGENT_IN_CELL]
  · have hpos : 0 < specSigmoidScore 5 0 := by
      rw [specSigmoidScore]
      positivity
    have h0 : state_change_probability 0 1 5 = 0 := by
      norm_num [state_change_probability]
    rw [h0]
    push_cast
    exact ne_of_lt hpos

/-- C4 amended: each raw neighborhood count is converted to the plain
ratio count / (window_size * CAPACITY) and used directly as the score;
no clipping and no sigmoid is applied, and the steepness parameter `k`
in the signature is unused (the result does not depend on it). -/
theorem ratio_score_amended (n w k q : ℚ) :
    state_change_probability n w k = n / (w * (MAX_AVAILABLE_AGENT_IN_CELL : ℚ))
    ∧ state_change_probability n w k = state_change_probability n w q :=
  ⟨rfl, rfl⟩

/-- C5 counterexample: for the base agent of `w22` the code's weights
normalize by `len(candidates) * CAPACITY` (here 4*5), not `1 * CAPACITY`:
the code computes [1/20, 0, 1/4, 0] over its four candidate cells where
the spec's formula gives [1/5, 0, 1, 0]. -/
theorem movement_weight_cex :
    movementWeights w22 a22 (find_cell_to_move w22 (find_possible_n_available_cells w22 a22.pos))
      = [1/20, 0, 1/4, 0]
    ∧ specMovementWeights w22.homeMap a22.pos
        (find_cell_to_move w22 (find_possible_n_available_cells w22 a22.pos)) = [1/5, 0, 1, 0]
    ∧ ([1/20, 0, 1/4, 0] : List ℚ) ≠ [1/5, 0, 1, 0] := by decide

/-- C5 amended: the weight of each candidate cell is the relevant map's
count at that cell (own-team map for base, riot map for riot) divided by
(number of candidate cells * CAPACITY), multiplied by the exit bias boost
exactly when the candidate row is strictly beyond the agent's row. -/
theorem movement_weight_amended (w : World) (a : Agent) (cells : List Cell)
    (h : a.state = .base ∨ a.state = .riot) :
    movementWeights w a cells = cells.map (fun c =>
      ((relevantMap w a (posIdx c)) : ℚ)
        / ((cells.length : ℚ) * (MAX_AVAILABLE_AGENT_IN_CELL : ℚ))
        * (if a.pos.2 < c.2 then DOWNWARD_EXTRA_WEIGHT else 1)) := by
  have key : ∀ (f : Cell → ℚ) (pos : Cell) (nA : ℚ) (l : List Cell),
      cell_movement_probability pos l (l.map f) nA =
        l.map (fun c => f c / (nA * (MAX_AVAILABLE_AGENT_IN_CELL : ℚ))
          * (if pos.2 < c.2 then DOWNWARD_EXTRA_WEIGHT else 1)) := by
    intro f pos nA l
    induction l with
    | nil => rfl
    | cons c cs ih =>
      simp only [cell_movement_probability, List.map_cons, List.zip_cons_cons] at ih ⊢
      refine congrArg₂ List.cons ?_ ih
      by_cases hc : pos.2 < c.2 <;> simp [hc]
  rcases h with h | h <;>
    simp only [movementWeights, h, relevantMap, key]

/-- Witness for the amended C5 statement on a concrete world, agent and
candidate list. -/
theorem movement_weight_amended_witness :
    (a22.state = .base ∨ a22.state = .riot)
    ∧ movementWeights w22 a22 [(0, 0), (1, 0)] = [(0, 0), (1, 0)].map (fun c =>
        ((relevantMap w22 a22 (posIdx c)) : ℚ)
          / ((([(0, 0), (1, 0)] : List Cell).length : ℚ) * (MAX_AVAILABLE_AGENT_IN_CELL : ℚ))
          * (if a22.pos.2 < c.2 then DOWNWARD_EXTRA_WEIGHT else 1)) :=
  ⟨Or.inl rfl, movement_weight_amended w22 a22 [(0, 0), (1, 0)] (Or.inl rfl)⟩

/-- Over an empty candidate list the movement rule computes no weights. -/
theorem movementWeights_nil (w : World) (a : Agent) : movementWeights w a [] = [] := by
  cases h : a.state <;> simp [movementWeights, h, cell_movement_probability]

/-- The Bool test `np.all(rel_probs == 0.0)` agrees with the propositional
statement that every weight is zero. -/
theorem all_zero_iff (ws : List ℚ) :
    (ws.all (fun q => decide (q = 0)) = true) ↔ ∀ q ∈ ws, q = 0 := by
  simp [List.all_eq_true]

/-- C6: for a non-injured agent (off the exit row this governs its move):
when every capacity-admissible candidate has weight exactly zero the
decision is a uniform draw over the capacity-admissible exit-biased
candidates (row strictly beyond the agent's), staying put if that set is
empty; otherwise the decision is the weighted draw over the candidates;
and a stay decision leaves the world unchanged. -/
theorem movement_fallback_spec (w : World) (a : Agent) (potential : List Cell)
    (hstate : ¬ a.state = AgentState.injured)
    (hpot : potential = find_possible_n_available_cells w a.pos) :
    ((∀ q ∈ movementWeights w a (find_cell_to_move w potential), q = 0) →
      moveDecision w a potential =
        if (find_cell_to_move w potential).filter (fun c => decide (a.pos.2 < c.2)) = []
        then MoveDecision.stay
        else MoveDecision.uniform
          ((find_cell_to_move w potential).filter (fun c => decide (a.pos.2 < c.2))))
    ∧ ((¬ ∀ q ∈ movementWeights w a (find_cell_to_move w potential), q = 0) →
      moveDecision w a potential =
        MoveDecision.weighted (find_cell_to_move w potential)
          (movementWeights w a (find_cell_to_move w potential)))
    ∧ (∀ u, ¬ a.pos.2 = w.height - 1 → moveDecision w a potential = MoveDecision.stay →
      move_agent w a potential u = w) := by
  have hdw : find_available_downward_cells w a
      = (find_cell_to_move w potential).filter (fun c => decide (a.pos.2 < c.2)) := by
    rw [find_available_downward_cells, ← hpot]
  refine ⟨?_, ?_, ?_⟩
  · intro hz
    by_cases hav : find_cell_to_move w potential = []
    · rw [moveDecision, if_pos hav, hav]
      simp
    · rw [moveDecision, if_neg hav]
      have hall : (movementWeights w a (find_cell_to_move w potential)).all
          (fun q => decide (q = 0)) = true := (all_zero_iff _).mpr hz
      cases hst : a.state with
      | injured => exact absurd hst hstate
      | base => rw [moveDecisionCore, hall, if_pos rfl, hdw]
      | riot => rw [moveDecisionCore, hall, if_pos rfl, hdw]
  · intro hz
    by_cases hav : find_cell_to_move w potential = []
    · exact absurd (by rw [hav, movementWeights_nil]; intro q hq; cases hq) hz
    · rw [moveDecision, if_neg hav]
      have hall : ¬ ((movementWeights w a (find_cell_to_move w potential)).all
          (fun q => decide (q = 0)) = true) := fun hh => hz ((all_zero_iff _).mp hh)
      cases hst : a.state with
      | injured => exact absurd hst hstate
      | base => rw [moveDecisionCore, if_neg hall]
      | riot => rw [moveDecisionCore, if_neg hall]
  · intro u hrow hdec
    rw [move_agent, if_pos hrow, hdec]

/-- Witness for C6 on `wFull`: the home base agent at the full cell (0,0)
sees only zero weights (its team map is zero on all its admissible
candidates), and the decision is the uniform draw over the two
exit-biased candidates. -/
theorem movement_fallback_spec_witness :
    (¬ aFull.state = AgentState.injured)
    ∧ moveDecision wFull aFull (find_possible_n_available_cells wFull aFull.pos)
        = MoveDecision.uniform [(0, 1), (1, 1)] :=
  ⟨by decide,
    ((movement_fallback_spec wFull aFull (find_possible_n_available_cells wFull aFull.pos)
      (by decide) rfl).1 (by decide)).trans (by decide)⟩

/-- C7: calling add_agent against a cell already holding the capacity
raises the capacity error before touching any state: the embedding
returns `none` (the check precedes every mutation in the source, so the
grid, maps, live set and counters are untouched on the error). -/
theorem add_agent_capacity_error (w : World) (pos : Cell) (uid : Nat) (team : Bool)
    (st : AgentState) (h : MAX_AVAILABLE_AGENT_IN_CELL ≤ w.occupancy pos) :
    add_agent w pos uid team st = none := by
  rw [add_agent, if_pos h]

/-- Witness for C7: the full cell of `wFull` rejects a sixth agent. -/
theorem add_agent_capacity_error_witness :
    MAX_AVAILABLE_AGENT_IN_CELL ≤ wFull.occupancy (0, 0)
    ∧ add_agent wFull (0, 0) 9 true .base = none :=
  ⟨by decide, add_agent_capacity_error wFull (0, 0) 9 true .base (by decide)⟩

/-- Once the first three checks pass, the Python floor division computing
the building width agrees with the Nat division of the clamped values. -/
theorem buildingWidth_cast (width : Nat) (nStreets streetWidth : Int)
    (hn : 0 < nStreets) (hsw : 0 < streetWidth)
    (hle : nStreets * streetWidth ≤ (width : Int)) :
    ((width : Int) - nStreets * streetWidth) / (nStreets + 1)
      = ((width - nStreets.toNat * streetWidth.toNat) / (nStreets.toNat + 1) : Nat) := by
  obtain ⟨n, rfl⟩ := Int.eq_ofNat_of_zero_le hn.le
  obtain ⟨s, rfl⟩ := Int.eq_ofNat_of_zero_le hsw.le
  have hle' : n * s ≤ width := by exact_mod_cast hle
  rw [Int.toNat_ofNat, Int.toNat_ofNat]
  have e1 : ((width - n * s : Nat) : Int) = (width : Int) - (n : Int) * (s : Int) := by
    rw [Nat.cast_sub hle']
    push_cast
    ring
  have e2 : ((n : Int) + 1) = ((n + 1 : Nat) : Int) := by push_cast; ring
  rw [← e1, e2, ← Int.ofNat_ediv]

/-- The construction failure cases of generate_vertical_streets, as a
disjunction over the four checks (the last one phrased with the Python
floor division). -/
theorem gvs_eq_none_iff (width : Nat) (nStreets streetWidth : Int) :
    generate_vertical_streets width nStreets streetWidth = none ↔
      nStreets ≤ 0 ∨ streetWidth ≤ 0 ∨ (width : Int) < nStreets * streetWidth
        ∨ ((width : Int) - nStreets * streetWidth) / (nStreets + 1) < 1 := by
  simp only [generate_vertical_streets]
  split_ifs with h1 h2 h3 h4
  · exact ⟨fun _ => Or.inl h1, fun _ => rfl⟩
  · exact ⟨fun _ => Or.inr (Or.inl h2), fun _ => rfl⟩
  · exact ⟨fun _ => Or.inr (Or.inr (Or.inl h3)), fun _ => rfl⟩
  · refine ⟨fun _ => Or.inr (Or.inr (Or.inr ?_)), fun _ => rfl⟩
    rw [buildingWidth_cast width nStreets streetWidth (not_le.mp h1) (not_le.mp h2)
      (not_lt.mp h3)]
    exact_mod_cast h4
  · constructor
    · intro hc
      simp at hc
    · intro hd
      rcases hd with hd | hd | hd | hd
      · exact absurd hd h1
      · exact absurd hd h2
      · exact absurd hd h3
      · refine absurd ?_ h4
        rw [buildingWidth_cast width nStreets streetWidth (not_le.mp h1) (not_le.mp h2)
          (not_lt.mp h3)] at hd
        exact_mod_cast hd

/-- On success, generate_vertical_streets yields exactly the street-column
predicate. -/
theorem gvs_eq_some (width : Nat) (nStreets streetWidth : Int)
    (h1 : ¬ nStreets ≤ 0) (h2 : ¬ streetWidth ≤ 0)
    (h3 : ¬ (width : Int) < nStreets * streetWidth)
    (h4 : ¬ (width - nStreets.toNat * streetWidth.toNat) / (nStreets.toNat + 1) < 1) :
    generate_vertical_streets width nStreets streetWidth
      = some (fun c => (List.range nStreets.toNat).any (fun i =>
          decide (streetStart width nStreets streetWidth i ≤ c
            ∧ c < streetStart width nStreets streetWidth i + streetWidth.toNat))) := by
  simp only [generate_vertical_streets, if_neg h1, if_neg h2, if_neg h3, if_neg h4]
  rfl

/-- C8: the grid construction fails exactly under the four configuration
conditions, and on success the top exit-space rows are fully passable and
each of the `n_streets` equal-width vertical corridors lies inside the
grid and is passable across all rows. -/
theorem citymap_build_spec (width height : Nat) (nStreets streetWidth : Int) (esh : Nat) :
    (CityMap.build width height nStreets streetWidth esh = none ↔
      nStreets ≤ 0 ∨ streetWidth ≤ 0 ∨ (width : Int) < nStreets * streetWidth
        ∨ ((width : Int) - nStreets * streetWidth) / (nStreets + 1) < 1)
    ∧ (¬ (nStreets ≤ 0 ∨ streetWidth ≤ 0 ∨ (width : Int) < nStreets * streetWidth
        ∨ ((width : Int) - nStreets * streetWidth) / (nStreets + 1) < 1) →
      (∀ r c, r < esh → r < height → c < width →
        ((CityMap.build width height nStreets streetWidth esh).getD (fun _ => false)) (r, c)
          = true)
      ∧ (∀ i : Nat, (i : Int) < nStreets →
          streetStart width nStreets streetWidth i + streetWidth.toNat ≤ width
          ∧ ∀ r c, r < height → streetStart width nStreets streetWidth i ≤ c →
              c < streetStart width nStreets streetWidth i + streetWidth.toNat →
              ((CityMap.build width height nStreets streetWidth esh).getD (fun _ => false))
                (r, c) = true)) := by
  constructor
  · rw [CityMap.build, Option.map_eq_none']
    exact gvs_eq_none_iff width nStreets streetWidth
  · intro hok
    push_neg at hok
    obtain ⟨h1, h2, h3, h4⟩ := hok
    have h1' : ¬ nStreets ≤ 0 := not_le.mpr h1
    have h2' : ¬ streetWidth ≤ 0 := not_le.mpr h2
    have h3' : ¬ (width : Int) < nStreets * streetWidth := not_lt.mpr h3
    have h4n : ¬ (width - nStreets.toNat * streetWidth.toNat) / (nStreets.toNat + 1) < 1 := by
      intro hc
      refine absurd ?_ (not_lt.mpr h4)
      rw [buildingWidth_cast width nStreets streetWidth h1 h2 h3]
      exact_mod_cast hc
    have hbuild : CityMap.build width height nStreets streetWidth esh
        = some (fun rc => decide (rc.1 < height) && decide (rc.2 < width) &&
            (decide (rc.1 < esh) || (List.range nStreets.toNat).any (fun i =>
              decide (streetStart width nStreets streetWidth i ≤ rc.2
                ∧ rc.2 < streetStart width nStreets streetWidth i + streetWidth.toNat)))) := by
      rw [CityMap.build, gvs_eq_some width nStreets streetWidth h1' h2' h3' h4n]
      rfl
    obtain ⟨n, rfl⟩ := Int.eq_ofNat_of_zero_le h1.le
    obtain ⟨s, rfl⟩ := Int.eq_ofNat_of_zero_le h2.le
    have hnn : 1 ≤ n := by exact_mod_cast h1
    have hss : 1 ≤ s := by exact_mod_cast h2
    have hle : n * s ≤ width := by exact_mod_cast h3
    have hbw : 1 ≤ (width - n * s) / (n + 1) := by
      have := h4n
      rw [Int.toNat_ofNat, Int.toNat_ofNat] at this
      omega
    have hstart : ∀ i : Nat, streetStart width (n : Int) (s : Int) i
        = ((width - n * s) / (n + 1)) * (i + 1) + i * s := by
      intro i
      simp [streetStart, Int.toNat_ofNat]
    have hbound : ∀ i : Nat, i < n →
        streetStart width (n : Int) (s : Int) i + ((s : Int)).toNat ≤ width := by
      intro i hi
      rw [hstart, Int.toNat_ofNat]
      have h5 : ((width - n * s) / (n + 1)) * (n + 1) ≤ width - n * s :=
        Nat.div_mul_le_self _ _
      have h6 : ((width - n * s) / (n + 1)) * (i + 1) ≤ ((width - n * s) / (n + 1)) * n :=
        Nat.mul_le_mul (Nat.le_refl _) (by omega)
      have h7 : (i + 1) * s ≤ n * s := Nat.mul_le_mul (by omega) (Nat.le_refl s)
      have h8 : ((width - n * s) / (n + 1)) * (n + 1)
          = ((width - n * s) / (n + 1)) * n + ((width - n * s) / (n + 1)) := by ring
      have h9 : (i + 1) * s = i * s + s := by ring
      omega
    refine ⟨?_, ?_⟩
    · intro r c hresh hrh hcw
      rw [hbuild, Option.getD_some]
      simp only [Bool.and_eq_true, Bool.or_eq_true, decide_eq_true_eq]
      exact ⟨⟨hrh, hcw⟩, Or.inl hresh⟩
    · intro i hi
      have hi' : i < n := by exact_mod_cast hi
      refine ⟨hbound i hi', ?_⟩
      intro r c hrh hsc hcs
      have hcw : c < width := by
        have := hbound i hi'
        omega
      rw [hbuild, Option.getD_some]
      simp only [Bool.and_eq_true, Bool.or_eq_true, decide_eq_true_eq, List.any_eq_true,
        List.mem_range, Int.toNat_ofNat]
      refine ⟨⟨hrh, hcw⟩, Or.inr ⟨i, hi', ⟨hsc, hcs⟩⟩⟩

/-- Witness for C8 at the concrete configuration (width 10, height 6, two
streets of width 2, exit space height 2): the build succeeds, the exit
rows are passable, and a cell of the second street is passable. -/
theorem citymap_build_spec_witness :
    (¬ (((2 : Int) ≤ 0) ∨ ((2 : Int) ≤ 0) ∨ ((10 : Nat) : Int) < 2 * 2
        ∨ (((10 : Nat) : Int) - 2 * 2) / (2 + 1) < 1))
    ∧ ((CityMap.build 10 6 2 2 2).getD (fun _ => false)) (0, 5) = true
    ∧ ((CityMap.build 10 6 2 2 2).getD (fun _ => false)) (5, 6) = true :=
  ⟨by decide,
    ((citymap_build_spec 10 6 2 2 2).2 (by decide)).1 0 5 (by decide) (by decide) (by decide),
    (((citymap_build_spec 10 6 2 2 2).2 (by decide)).2 1 (by decide)).2 5 6 (by decide)
      (by decide) (by decide)⟩

/-- C9 counterexample: with the configuration, the activation order drawn
from the model RNG and the `random`-module stream all held fixed, the
per-tick aggregate counts still change when only the global numpy stream
changes — the trajectory is not a function of one World-owned seedable
source. -/
theorem aggregate_depends_on_numpy_stream :
    (modelStep w12 [0] [0] [0]).2 ≠ (modelStep w12 [0] [99/100] [0]).2 := by decide

/-- C9 amended: the model draws from three generators (the mesa model RNG
for activation order, the global numpy generator for state sampling, the
global `random` module for movement); a run is reproducible exactly when
all the consumed streams are fixed: identical configuration, orders and
draw sequences from both global streams give identical trajectories. -/
theorem run_deterministic_given_streams (w : World) (orders : List (List Nat))
    (nps1 nps2 pys1 pys2 : List (List ℚ))
    (hnp : ∀ i, nps1.get? i = nps2.get? i) (hpy : ∀ i, pys1.get? i = pys2.get? i) :
    runModel w orders nps1 pys1 = runModel w orders nps2 pys2 := by
  rw [List.ext_get? hnp, List.ext_get? hpy]

/-- Witness for the amended C9 statement on a concrete one-step run. -/
theorem run_deterministic_given_streams_witness :
    runModel w12 [[0]] [[0]] [[0]] = runModel w12 [[0]] [[0]] [[0]] :=
  run_deterministic_given_streams w12 [[0]] [[0]] [[0]] [[0]] [[0]]
    (fun _ => rfl) (fun _ => rfl)

/-- C10: once an agent is injured its per-tick behavior, iterated any
number of times, is the identity on the World: it keeps its state and
position, no density counter changes, it is never removed from the live
set and no left counter moves — including when it stands on the exit
row. -/
theorem injured_step_noop (w : World) (uid : Nat) (a : Agent) (u v : ℚ) (n : Nat)
    (hfind : w.agents.find? (fun x => decide (x.uid = uid)) = some a)
    (hinj : a.state = .injured) :
    (fun ww => FanAgent.step ww uid u v)^[n] w = w := by
  have h1 : FanAgent.step w uid u v = w := by
    rw [FanAgent.step, hfind]
    simp [hinj]
  exact Function.iterate_fixed h1 n

/-- Witness for C10: the injured agent of `injWorld` stands on the exit
row and three steps leave the world unchanged. -/
theorem injured_step_noop_witness :
    injWorld.agents.find? (fun x => decide (x.uid = 0)) = some aInj
    ∧ aInj.state = .injured
    ∧ (fun ww => FanAgent.step ww 0 0 0)^[3] injWorld = injWorld :=
  ⟨by decide, rfl, injured_step_noop injWorld 0 aInj 0 0 3 (by decide) rfl⟩

end ABM
